import Mathlib

/-!
# Shallow embedding of the clokwerk recurring-task scheduler core

Instants are modelled as `Int` seconds since the Unix epoch, in UTC at second
precision (the code's `with_nanosecond(0)` truncation makes the sub-second part
irrelevant to every boundary computation).  The chrono accessors used by the
source become:

* `timestamp()`                      = the instant `t` itself;
* `num_seconds_from_midnight()`      = `t  % 86400` (chrono returns the local
  wall-clock seconds, always in `[0, 86400)`);
* `date()` is represented by the day number `t / 86400` (days since
  1970-01-01); `date().and_hms(0,0,0)` is that day number times 86400;
* `num_days_from_ce()`               = day number + 719163 (chrono gives
  719163 for 1970-01-01);
* `weekday().num_days_from_monday()` = `(day + 3)  % 7` (1970-01-01 was a
  Thursday).

Rust's `%` on `i64` is truncated remainder, hence `Int.tmod`; `u32 % u32` and
chrono's nonnegative wall-clock quantities use `Int.emod`.  The `as u32` casts
of the source are idealized away in the primary definitions below (they are
value-preserving for the instants all scenario claims use); a separate
cast-faithful "checked" model, with the debug-mode panics of `u32` arithmetic
made explicit, is given further down for the safety claim.
-/

namespace Clokwerk

/-- chrono `num_seconds_from_midnight` of the instant `t` (UTC model). -/
def secondsFromMidnight (t : Int) : Int := t  % 86400

/-- The day number (days since 1970-01-01) of the calendar day containing `t`. -/
def dayNumber (t : Int) : Int := t / 86400

/-- chrono `num_days_from_ce`: 1970-01-01 (day number 0) is day 719163 from the
Common Era start. -/
def numDaysFromCE (t : Int) : Int := dayNumber t + 719163

/-- chrono `weekday().num_days_from_monday()` for the day number `d`
(0 = Monday, …, 6 = Sunday); 1970-01-01 (day 0) was a Thursday (= 3). -/
def daysFromMonday (d : Int) : Int := (d + 3)  % 7

/-- chrono `date().and_hms(0, 0, 0)` for the day number `d`. -/
def midnightOfDay (d : Int) : Int := d * 86400

/-- `Interval` from src/intervals.rs: the closed set of recurrence units. -/
inductive Interval where
  | Seconds (n : Nat)
  | Minutes (n : Nat)
  | Hours (n : Nat)
  | Days (n : Nat)
  | Weeks (n : Nat)
  | Monday
  | Tuesday
  | Wednesday
  | Thursday
  | Friday
  | Saturday
  | Sunday
  | Weekday
deriving DecidableEq, Repr

/-- The static `DAYS_TO_SHIFT` table from src/intervals.rs. -/
def DAYS_TO_SHIFT : List Nat := [7, 6, 5, 4, 3, 2, 1, 7, 6, 5, 4, 3, 2, 1]

/-- `day_of_week` from src/intervals.rs: 0–6 for Monday–Sunday, 7 otherwise. -/
def dayOfWeek : Interval → Nat
  | .Monday => 0
  | .Tuesday => 1
  | .Wednesday => 2
  | .Thursday => 3
  | .Friday => 4
  | .Saturday => 5
  | .Sunday => 6
  | _ => 7

/-- The zero-count guard that opens `Interval::next` / `prev` / `next_from`:
`Seconds(x) | Minutes(x) | Hours(x) | Days(x) | Weeks(x) if x == 0`. -/
def Interval.isZero : Interval → Bool
  | .Seconds n | .Minutes n | .Hours n | .Days n | .Weeks n => n == 0
  | _ => false

/-- `Interval::next` from src/intervals.rs (`impl NextTime for Interval`). -/
def Interval.next (i : Interval) (t : Int) : Int :=
  if i.isZero then t
  else
    match i with
    | .Seconds s =>
        let modulus := t.tmod (s : Int)
        t + ((s : Int) - modulus)
    | .Minutes m =>
        let s := secondsFromMidnight t
        let modulus := s  % ((m : Int) * 60)
        t + ((m : Int) * 60 - modulus)
    | .Hours h =>
        let s := secondsFromMidnight t
        let modulus := s  % ((h : Int) * 3600)
        t + ((h : Int) * 3600 - modulus)
    | .Days d =>
        let dayOfEra := numDaysFromCE t
        let modulus := dayOfEra  % (d : Int)
        midnightOfDay (dayNumber t + ((d : Int) - modulus))
    | .Weeks w =>
        let dow := daysFromMonday (dayNumber t)
        let startOfWeek := dayNumber t - dow
        let weekNum := (numDaysFromCE t).tdiv 7
        let modulus := weekNum  % (w : Int)
        midnightOfDay (startOfWeek + 7 * ((w : Int) - modulus))
    | .Weekday =>
        let dow := daysFromMonday (dayNumber t)
        let days : Int := if dow = 4 then 3 else if dow = 5 then 2 else 1
        midnightOfDay (dayNumber t + days)
    | wd =>
        let dow := (daysFromMonday (dayNumber t)).toNat
        let iDow := dayOfWeek wd
        let toShift := DAYS_TO_SHIFT.getD (7 - iDow + dow) 0
        midnightOfDay (dayNumber t + (toShift : Int))

/-- `Interval::prev` from src/intervals.rs (`impl NextTime for Interval`). -/
def Interval.prev (i : Interval) (t : Int) : Int :=
  if i.isZero then t
  else
    match i with
    | .Seconds s =>
        let modulus := t.tmod (s : Int)
        let modulus := if modulus = 0 then (s : Int) else modulus
        t - modulus
    | .Minutes m =>
        let s := secondsFromMidnight t
        let modulus := s  % ((m : Int) * 60)
        let modulus := if modulus = 0 then (m : Int) * 60 else modulus
        t - modulus
    | .Hours h =>
        let s := secondsFromMidnight t
        let modulus := s  % ((h : Int) * 3600)
        let modulus := if modulus = 0 then (h : Int) * 3600 else modulus
        t - modulus
    | .Days d =>
        let dayOfEra := numDaysFromCE t
        let modulus := dayOfEra  % (d : Int)
        let modulus :=
          if modulus = 0 ∧ secondsFromMidnight t = 0 then (d : Int) else modulus
        midnightOfDay (dayNumber t - modulus)
    | .Weeks w =>
        let dow := daysFromMonday (dayNumber t)
        let startOfWeek := dayNumber t - dow
        let weekNum := (numDaysFromCE t).tdiv 7
        let modulus := weekNum  % (w : Int)
        let modulus :=
          if modulus = 0 ∧ secondsFromMidnight t = 0 then (w : Int) else modulus
        midnightOfDay (startOfWeek - 7 * modulus)
    | .Weekday =>
        let dow := daysFromMonday (dayNumber t)
        let days : Int :=
          if dow = 5 then 1
          else if dow = 6 then 2
          else if secondsFromMidnight t = 0 then 1 else 0
        midnightOfDay (dayNumber t - days)
    | wd =>
        let dow := daysFromMonday (dayNumber t)
        let iDow : Int := (dayOfWeek wd : Int)
        let toShift := if dow ≥ iDow then dow - iDow else 7 + dow - iDow
        let toShift :=
          if toShift = 0 ∧ secondsFromMidnight t = 0 then 7 else toShift
        midnightOfDay (dayNumber t - toShift)

/-- `Interval::next_from` from src/intervals.rs: unaligned advance by exactly
the interval's span (weekday variants still align to midnight). -/
def Interval.nextFrom (i : Interval) (t : Int) : Int :=
  if i.isZero then t
  else
    match i with
    | .Seconds s => t + (s : Int)
    | .Minutes m => t + (m : Int) * 60
    | .Hours h => t + (h : Int) * 3600
    | .Days d => t + (d : Int) * 86400
    | .Weeks w => t + (w : Int) * 7 * 86400
    | .Weekday =>
        let dow := daysFromMonday (dayNumber t)
        let days : Int := if dow = 4 then 3 else if dow = 5 then 2 else 1
        t + days * 86400
    | wd => Interval.next wd t

/-- Convenient builder mirroring `DateTime` construction in the repo's tests:
day number plus wall-clock hour/minute/second. -/
def instant (day h m s : Int) : Int := day * 86400 + h * 3600 + m * 60 + s

/-- Day number of 2018-09-04 (a Tuesday), the date used throughout the
intervals.rs tests. -/
def day20180904 : Int := 17778

/-- `Adjustment` from src/intervals.rs; a `Time` payload is the wall-clock
seconds-from-midnight of the `NaiveTime` (so `0 ≤ s < 86400` for values the
external parser can produce). -/
inductive Adjustment where
  | Intervals (l : List Interval)
  | Time (s : Int)
deriving DecidableEq, Repr

/-- `RunConfig` from src/intervals.rs: one base interval plus an optional
adjustment. -/
structure RunConfig where
  base : Interval
  adjustment : Option Adjustment
deriving DecidableEq, Repr

/-- `RunConfig::from_interval`. -/
def RunConfig.fromInterval (base : Interval) : RunConfig :=
  { base := base, adjustment := none }

/-- `RunConfig::with_time`. -/
def RunConfig.withTime (c : RunConfig) (t : Int) : RunConfig :=
  { c with adjustment := some (.Time t) }

/-- `RunConfig::with_subinterval`. -/
def RunConfig.withSubinterval (c : RunConfig) (ival : Interval) : RunConfig :=
  let ivalQueue :=
    match c.adjustment with
    | none => []
    | some (.Time _) => []
    | some (.Intervals ivals) => ivals
  { c with adjustment := some (.Intervals (ivalQueue ++ [ival])) }

/-- `RunConfig::apply_adjustment`.  In the `Time` arm, `from.date().and_time(t)`
is the candidate's calendar day at wall-clock time `t`, and the `t < from_time`
case rolls the date forward one day first. -/
def RunConfig.applyAdjustment (c : RunConfig) (t : Int) : Int :=
  match c.adjustment with
  | none => t
  | some (.Time s) =>
      let fromTime := secondsFromMidnight t
      if s ≥ fromTime then midnightOfDay (dayNumber t) + s
      else midnightOfDay (dayNumber t + 1) + s
  | some (.Intervals ivals) => ivals.foldl (fun rv ival => ival.next rv) t

/-- `RunConfig::next` (`impl NextTime for RunConfig`): prev-then-test. -/
def RunConfig.next (c : RunConfig) (t : Int) : Int :=
  let candidate := c.applyAdjustment (c.base.prev t)
  if candidate > t then candidate
  else c.applyAdjustment (c.base.next t)

/-- The causes of a panic in the Rust source, for the cast-faithful model:
`unimplemented!()`, debug-mode `u32` overflow/underflow, or slice indexing. -/
inductive PanicCause where
  | unimplementedCode
  | arithOverflow
  | indexOutOfBounds
deriving DecidableEq, Repr

/-- `RunConfig::prev` (`impl NextTime for RunConfig`): the body is
`unimplemented!()`, an unconditional panic. -/
def RunConfig.prev (_ : RunConfig) (_ : Int) : Except PanicCause Int :=
  .error .unimplementedCode

/-- `RunCount` from src/job_schedule.rs. -/
inductive RunCount where
  | Never
  | Times (n : Nat)
  | Forever
deriving DecidableEq, Repr

/-- `RepeatConfig` from src/job_schedule.rs. -/
structure RepeatConfig where
  repeats : Nat
  repeat_interval : Interval
  repeats_left : Nat
deriving DecidableEq, Repr

/-- `JobSchedule` from src/job_schedule.rs (the timezone is fixed to UTC by
the time model, and the time provider is made explicit: every operation that
called `Tp::now` takes the instant as an argument). -/
structure JobSchedule where
  frequency : List RunConfig
  next_run : Option Int
  last_run : Option Int
  run_count : RunCount
  repeat_config : Option RepeatConfig
deriving DecidableEq, Repr

namespace JobSchedule

/-- `JobSchedule::new`. -/
def new (ival : Interval) : JobSchedule :=
  { frequency := [RunConfig.fromInterval ival]
    next_run := none
    last_run := none
    run_count := .Forever
    repeat_config := none }

/-- `JobSchedule::last_frequency` combined with the assignment made through it
by `at_time` / `plus`: replace the last element of `frequency`. -/
def modifyLast (s : JobSchedule) (f : RunConfig → RunConfig) : JobSchedule :=
  match s.frequency.getLast? with
  | none => s
  | some c => { s with frequency := s.frequency.dropLast ++ [f c] }

/-- `JobSchedule::at_time` (the `at` / `try_at` wrappers parse the string
first; parsing is external to the core). -/
def atTime (s : JobSchedule) (t : Int) : JobSchedule :=
  s.modifyLast (fun c => c.withTime t)

/-- `JobSchedule::plus`. -/
def plus (s : JobSchedule) (ival : Interval) : JobSchedule :=
  s.modifyLast (fun c => c.withSubinterval ival)

/-- `JobSchedule::and_every`. -/
def andEvery (s : JobSchedule) (ival : Interval) : JobSchedule :=
  { s with frequency := s.frequency ++ [RunConfig.fromInterval ival] }

/-- `JobSchedule::once`. -/
def once (s : JobSchedule) : JobSchedule := { s with run_count := .Times 1 }

/-- `JobSchedule::forever`. -/
def forever (s : JobSchedule) : JobSchedule := { s with run_count := .Forever }

/-- `JobSchedule::count`. -/
def count (s : JobSchedule) (n : Nat) : JobSchedule :=
  { s with run_count := .Times n }

/-- `Repeating::times` from src/job_schedule.rs, reached through
`repeating_every(interval).times(n)`: for `n ≥ 1` install a `RepeatConfig`
with `repeats_left = 0`, otherwise do nothing. -/
def repeatingEveryTimes (s : JobSchedule) (ival : Interval) (n : Nat) :
    JobSchedule :=
  if n ≥ 1 then
    { s with repeat_config := some ⟨n, ival, 0⟩ }
  else s

/-- `JobSchedule::next_run_time`. -/
def nextRunTime (s : JobSchedule) (now : Int) : Option Int :=
  match s.run_count with
  | .Never => none
  | _ => (s.frequency.map (fun freq => freq.next now)).min?

/-- `JobSchedule::can_run_again`. -/
def canRunAgain (s : JobSchedule) : Bool := s.run_count != RunCount.Never

/-- `JobSchedule::start_schedule`, with the provider's `now` explicit. -/
def startSchedule (s : JobSchedule) (now : Int) : JobSchedule :=
  if s.next_run = none then
    { s with
      next_run := s.nextRunTime now
      repeat_config := s.repeat_config.map
        (fun rc => { rc with repeats_left := rc.repeats }) }
  else s

/-- `JobSchedule::is_pending`. -/
def isPending (s : JobSchedule) (now : Int) : Bool :=
  match s.next_run with
  | some dt => dt ≤ now
  | none => false

/-- The catch-up `loop` inside `JobSchedule::schedule_next`: repeatedly apply
`repeat_interval.next_from` until the result is strictly after `now`.  The
source loop need not terminate (a zero repeat interval never advances), so the
model carries fuel and returns `none` when it runs out. -/
def catchUp (ival : Interval) (now : Int) : Int → Nat → Option Int
  | _, 0 => none
  | cur, fuel + 1 =>
      let next := ival.nextFrom cur
      if next > now then some next else catchUp ival now next fuel

/-- `JobSchedule::schedule_next`; `none` models the non-terminating loop. -/
def scheduleNext (s : JobSchedule) (now : Int) (fuel : Nat) :
    Option JobSchedule :=
  if s.run_count = RunCount.Never then some s
  else
    let nextRunTime := s.nextRunTime now
    let afterRepeat : Option JobSchedule :=
      match s.repeat_config with
      | some rc =>
          if rc.repeats_left > 0 then
            match catchUp rc.repeat_interval now (s.next_run.getD now) fuel with
            | none => none
            | some next =>
                some { s with
                  next_run := some next
                  repeat_config :=
                    some { rc with repeats_left := rc.repeats_left - 1 } }
          else
            some { s with
              next_run := nextRunTime
              repeat_config := some { rc with repeats_left := rc.repeats } }
      | none => some { s with next_run := nextRunTime }
    afterRepeat.map (fun s2 =>
      { s2 with
        last_run := some now
        run_count :=
          match s2.run_count with
          | .Never => RunCount.Never
          | .Times n => if n > 1 then .Times (n - 1) else .Never
          | .Forever => RunCount.Forever })

end JobSchedule

/-- `SyncJob` from src/sync_job.rs.  The job body (`Option<Box<dyn FnMut()>>`)
is modelled by whether a body is attached plus a counter of how many times it
has been invoked, which is what `self.job.as_mut().map(|f| f())` does to it. -/
structure SyncJob where
  schedule : JobSchedule
  jobAttached : Bool
  bodyRuns : Nat
deriving DecidableEq, Repr

namespace SyncJob

/-- `SyncJob::new`. -/
def new (ival : Interval) : SyncJob :=
  { schedule := JobSchedule.new ival, jobAttached := false, bodyRuns := 0 }

/-- `SyncJob::run`: attach the body and start the schedule (the provider's
`now` made explicit). -/
def run (j : SyncJob) (now : Int) : SyncJob :=
  { j with jobAttached := true, schedule := j.schedule.startSchedule now }

/-- `SyncJob::execute`: no-op when runs are exhausted, otherwise invoke the
body (if attached) and advance the schedule. -/
def execute (j : SyncJob) (now : Int) (fuel : Nat) : Option SyncJob :=
  if !j.schedule.canRunAgain then some j
  else
    let bodyRuns := if j.jobAttached then j.bodyRuns + 1 else j.bodyRuns
    (j.schedule.scheduleNext now fuel).map (fun sch =>
      { schedule := sch, jobAttached := j.jobAttached, bodyRuns := bodyRuns })

/-- `Repeating::times` applied to a `SyncJob` (the `Repeating` builder reaches
the schedule through `WithSchedule::schedule_mut`, src/sync_job.rs). -/
def repeating (j : SyncJob) (ival : Interval) (n : Nat) : SyncJob :=
  { j with schedule := j.schedule.repeatingEveryTimes ival n }

/-- `JobSchedule::count` applied to a `SyncJob` through its schedule. -/
def countTimes (j : SyncJob) (n : Nat) : SyncJob :=
  { j with schedule := j.schedule.count n }

end SyncJob

/-- Day number of 2020-06-16 (a Tuesday), the date of the repo's
`test_repeating`. -/
def day20200616 : Int := 18429

/-! ## Spec-side judgement predicates

These definitions follow the spec's words (§4.1 alignment rules, §4.2/§7
contracts), not the source; they exist to compare the source-derived
operations against the specified behaviour. -/

/-- Modelled from the spec §4.1: `x` is a boundary of the interval, i.e. an
instant satisfying the interval's alignment rule — multiples of `n` seconds
since the epoch, multiples of `n` minutes/hours since local midnight, midnight
of days that are multiples of `n` days from the era start, midnight of Mondays
on multiples of `n` weeks from the week of the era start (0001-01-01, itself a
Monday), midnight of the named weekday, or midnight of a non-Saturday,
non-Sunday day. -/
def isBoundary (i : Interval) (x : Int) : Prop :=
  match i with
  | .Seconds n => x  % (n : Int) = 0
  | .Minutes n => (secondsFromMidnight x)  % ((n : Int) * 60) = 0
  | .Hours n => (secondsFromMidnight x)  % ((n : Int) * 3600) = 0
  | .Days n =>
      secondsFromMidnight x = 0 ∧ (numDaysFromCE x)  % (n : Int) = 0
  | .Weeks n =>
      secondsFromMidnight x = 0 ∧ daysFromMonday (dayNumber x) = 0 ∧
        ((numDaysFromCE x - 1).ediv 7)  % (n : Int) = 0
  | .Monday => secondsFromMidnight x = 0 ∧ daysFromMonday (dayNumber x) = 0
  | .Tuesday => secondsFromMidnight x = 0 ∧ daysFromMonday (dayNumber x) = 1
  | .Wednesday => secondsFromMidnight x = 0 ∧ daysFromMonday (dayNumber x) = 2
  | .Thursday => secondsFromMidnight x = 0 ∧ daysFromMonday (dayNumber x) = 3
  | .Friday => secondsFromMidnight x = 0 ∧ daysFromMonday (dayNumber x) = 4
  | .Saturday => secondsFromMidnight x = 0 ∧ daysFromMonday (dayNumber x) = 5
  | .Sunday => secondsFromMidnight x = 0 ∧ daysFromMonday (dayNumber x) = 6
  | .Weekday => secondsFromMidnight x = 0 ∧ daysFromMonday (dayNumber x) ≤ 4

instance (i : Interval) (x : Int) : Decidable (isBoundary i x) := by
  unfold isBoundary
  cases i <;> exact inferInstance

/-- The property the spec asserts of `Interval::prev`: the result is a
boundary, it is strictly before `from` (when `from` is itself a boundary the
previous *distinct* boundary is required, and when it is not, any boundary at
or before `from` is already strictly before it), and no boundary lies between
the result and `from`. -/
def prevSpec (i : Interval) (t : Int) : Prop :=
  isBoundary i (i.prev t) ∧ i.prev t < t ∧
    ∀ b : Int, isBoundary i b → b < t → b ≤ i.prev t

/-- A `Time` adjustment carries a wall-clock `NaiveTime`, hence a
seconds-from-midnight value in `[0, 86400)`; other adjustments are
unconstrained. -/
def validAdjustment : Option Adjustment → Prop
  | some (.Time s) => 0 ≤ s ∧ s < 86400
  | _ => True

instance (a : Option Adjustment) : Decidable (validAdjustment a) := by
  unfold validAdjustment
  match a with
  | none => exact inferInstance
  | some (.Time _) => exact inferInstance
  | some (.Intervals _) => exact inferInstance

/-! ## Cast-faithful ("checked") model of the interval arithmetic

The primary definitions above idealize Rust's `u32` casts.  The definitions
below keep them: `as u32` wraps modulo `2^32`, and the `u32` subtractions and
multiplications panic on overflow in a debug build (`Except.error` here).
This is the model the safety claim is judged against. -/

/-- Rust `as u32`: wrap into `[0, 2^32)`. -/
def u32cast (x : Int) : Int := x  % 4294967296

/-- Debug-mode `u32` subtraction: panics when the result would underflow. -/
def checkedSubU32 (a b : Int) : Except PanicCause Int :=
  if b ≤ a then .ok (a - b) else .error .arithOverflow

/-- Debug-mode `u32` multiplication: panics when the result overflows. -/
def checkedMulU32 (a b : Int) : Except PanicCause Int :=
  if a * b < 4294967296 then .ok (a * b) else .error .arithOverflow

/-- `Interval::next` with the `u32` casts and debug-overflow panics kept
(`s - (modulus as u32)` in the `Seconds` arm, `m * 60` / `h * 3600` in the
`Minutes`/`Hours` arms, `d - modulus` / `w - modulus` in the `Days`/`Weeks`
arms, and the `DAYS_TO_SHIFT` slice index). -/
def Interval.nextChecked (i : Interval) (t : Int) : Except PanicCause Int :=
  if i.isZero then .ok t
  else
    match i with
    | .Seconds s => do
        let modulus := t.tmod (s : Int)
        let amt ← checkedSubU32 (s : Int) (u32cast modulus)
        .ok (t + amt)
    | .Minutes m => do
        let c ← checkedMulU32 (m : Int) 60
        let modulus := (secondsFromMidnight t)  % c
        let c2 ← checkedMulU32 (m : Int) 60
        let amt ← checkedSubU32 c2 modulus
        .ok (t + amt)
    | .Hours h => do
        let c ← checkedMulU32 (h : Int) 3600
        let modulus := (secondsFromMidnight t)  % c
        let c2 ← checkedMulU32 (h : Int) 3600
        let amt ← checkedSubU32 c2 modulus
        .ok (t + amt)
    | .Days d => do
        let dayOfEra := u32cast (numDaysFromCE t)
        let modulus := dayOfEra  % (d : Int)
        let amt ← checkedSubU32 (d : Int) modulus
        .ok (midnightOfDay (dayNumber t + amt))
    | .Weeks w => do
        let dow := daysFromMonday (dayNumber t)
        let startOfWeek := dayNumber t - dow
        let weekNum := u32cast ((numDaysFromCE t).tdiv 7)
        let modulus := weekNum  % (w : Int)
        let amt ← checkedSubU32 (w : Int) modulus
        .ok (midnightOfDay (startOfWeek + 7 * amt))
    | .Weekday => .ok (Interval.next .Weekday t)
    | wd =>
        let dow := (daysFromMonday (dayNumber t)).toNat
        let idx := 7 - dayOfWeek wd + dow
        if idx < DAYS_TO_SHIFT.length then
          .ok (midnightOfDay (dayNumber t + (DAYS_TO_SHIFT.getD idx 0 : Int)))
        else .error .indexOutOfBounds

/-- `Interval::prev` with the `u32` casts and debug-overflow panics kept
(the `Seconds` arm stays in `i64` and cannot panic; `Minutes`/`Hours`
multiply `m * 60` / `h * 3600` in `u32`; `Days`/`Weeks` wrap
`num_days_from_ce` through `u32`). -/
def Interval.prevChecked (i : Interval) (t : Int) : Except PanicCause Int :=
  if i.isZero then .ok t
  else
    match i with
    | .Seconds _ => .ok (i.prev t)
    | .Minutes m => do
        let c ← checkedMulU32 (m : Int) 60
        let modulus := (secondsFromMidnight t)  % c
        let c2 ← checkedMulU32 (m : Int) 60
        let modulus := if modulus = 0 then c2 else modulus
        .ok (t - modulus)
    | .Hours h => do
        let c ← checkedMulU32 (h : Int) 3600
        let modulus := (secondsFromMidnight t)  % c
        let c2 ← checkedMulU32 (h : Int) 3600
        let modulus := if modulus = 0 then c2 else modulus
        .ok (t - modulus)
    | .Days d => do
        let dayOfEra := u32cast (numDaysFromCE t)
        let modulus := dayOfEra  % (d : Int)
        let modulus :=
          if modulus = 0 ∧ secondsFromMidnight t = 0 then (d : Int) else modulus
        .ok (midnightOfDay (dayNumber t - modulus))
    | .Weeks w => do
        let dow := daysFromMonday (dayNumber t)
        let startOfWeek := dayNumber t - dow
        let weekNum := u32cast ((numDaysFromCE t).tdiv 7)
        let modulus := weekNum  % (w : Int)
        let modulus :=
          if modulus = 0 ∧ secondsFromMidnight t = 0 then (w : Int) else modulus
        .ok (midnightOfDay (startOfWeek - 7 * modulus))
    | _ => .ok (i.prev t)

/-- The `u32`-type constraints on an interval's count, plus the requirement
that converting the count to seconds stays below `2^32` (the `m * 60` /
`h * 3600` products the source computes in `u32`). -/
def intervalFits : Interval → Prop
  | .Seconds n | .Days n | .Weeks n => (n : Int) < 4294967296
  | .Minutes n => (n : Int) * 60 < 4294967296
  | .Hours n => (n : Int) * 3600 < 4294967296
  | _ => True

instance (i : Interval) : Decidable (intervalFits i) := by
  unfold intervalFits
  cases i <;> exact inferInstance

/-- The `u32` unit-conversion bounds extended to an adjustment: a chained
adjustment applies each sub-interval's `next`, so each sub-interval must
satisfy `intervalFits`; other adjustments do no interval arithmetic. -/
def adjustmentFits : Option Adjustment → Prop
  | some (.Intervals l) => ∀ ival ∈ l, intervalFits ival
  | _ => True

instance (a : Option Adjustment) : Decidable (adjustmentFits a) := by
  unfold adjustmentFits
  match a with
  | none => exact inferInstance
  | some (.Time _) => exact inferInstance
  | some (.Intervals _) => exact inferInstance

/-- An instant bound comfortably inside chrono's representable date range
(about year 255,000), below which `num_days_from_ce` fits in `u32`. -/
def chronoRangeBound : Int := 8000000000000

/-! ## Concrete claim scenarios -/

/-- C2 scenario, step 0: base one hour, repeating every 45 minutes twice,
armed at 2020-06-16T07:58:00Z (src/job_schedule.rs `test_repeating`). -/
def c2Job0 : SyncJob :=
  ((SyncJob.new (.Hours 1)).repeating (.Minutes 45) 2).run
    (instant day20200616 7 58 0)

/-- C2 scenario after executing at 08:00. -/
def c2Job1 : Option SyncJob := c2Job0.execute (instant day20200616 8 0 0) 100

/-- C2 scenario after executing at 08:45. -/
def c2Job2 : Option SyncJob :=
  c2Job1.bind (fun j => j.execute (instant day20200616 8 45 0) 100)

/-- C2 scenario after executing at 09:30. -/
def c2Job3 : Option SyncJob :=
  c2Job2.bind (fun j => j.execute (instant day20200616 9 30 0) 100)

/-- C1 scenario: a `count(1)` job on a one-hour base, armed at t = 100
(1970-01-01T00:01:40Z), whose single allowed run happens at t = 3600. -/
def c1Job0 : SyncJob := ((SyncJob.new (.Hours 1)).countTimes 1).run 100

/-- C1 scenario after the single execution. -/
def c1Job1 : Option SyncJob := c1Job0.execute 3600 100

/-- C10 scenario: a `count(0)` job on a one-hour base, armed at t = 100. -/
def c10Job0 : SyncJob := ((SyncJob.new (.Hours 1)).countTimes 0).run 100

/-- C10 scenario after executing at its first due instant t = 3600. -/
def c10Job1 : Option SyncJob := c10Job0.execute 3600 100

/-- C10 scenario after a further execution attempt at t = 7200. -/
def c10Job2 : Option SyncJob := c10Job1.bind (fun j => j.execute 7200 100)

/-- An exhausted job state (the state `c1Job1` reaches: run count `Never`,
`next_run` still set), used to witness the exhausted-schedule no-op laws. -/
def c1ExhaustedJob : SyncJob :=
  ⟨⟨[RunConfig.fromInterval (.Hours 1)], some 7200, some 3600, .Never, none⟩,
    true, 1⟩

/-! ## Sanity checks

The embedding reproduces the repo's own test vectors
(`test_next_start`, `test_prev`, 2018-09-04T14:22:13Z). -/

example : (Interval.Seconds 5).next (instant day20180904 14 22 13)
    = instant day20180904 14 22 15 := by decide
example : (Interval.Minutes 15).next (instant day20180904 14 22 13)
    = instant day20180904 14 30 0 := by decide
example : (Interval.Hours 2).next (instant day20180904 14 22 13)
    = instant day20180904 16 0 0 := by decide
example : (Interval.Days 2).next (instant day20180904 14 22 13)
    = instant (day20180904 + 1) 0 0 0 := by decide
example : (Interval.Weeks 2).next (instant day20180904 14 22 13)
    = instant (day20180904 + 6) 0 0 0 := by decide
example : Interval.Monday.next (instant day20180904 14 22 13)
    = instant (day20180904 + 6) 0 0 0 := by decide
example : Interval.Wednesday.next (instant day20180904 14 22 13)
    = instant (day20180904 + 1) 0 0 0 := by decide
example : Interval.Weekday.next (instant (day20180904 + 3) 0 0 0)
    = instant (day20180904 + 6) 0 0 0 := by decide
example : (Interval.Seconds 5).prev (instant day20180904 14 22 13)
    = instant day20180904 14 22 10 := by decide
example : (Interval.Minutes 15).prev (instant day20180904 14 22 13)
    = instant day20180904 14 15 0 := by decide
example : (Interval.Hours 2).prev (instant day20180904 14 22 13)
    = instant day20180904 14 0 0 := by decide
example : (Interval.Days 2).prev (instant day20180904 14 22 13)
    = instant (day20180904 - 1) 0 0 0 := by decide
example : (Interval.Weeks 2).prev (instant day20180904 14 22 13)
    = instant (day20180904 - 8) 0 0 0 := by decide
example : Interval.Monday.prev (instant day20180904 14 22 13)
    = instant (day20180904 - 1) 0 0 0 := by decide
example : Interval.Wednesday.prev (instant day20180904 14 22 13)
    = instant (day20180904 - 6) 0 0 0 := by decide
example : Interval.Weekday.prev (instant (day20180904 - 3) 0 0 0)
    = instant (day20180904 - 4) 0 0 0 := by decide

/-! ## Claim theorems -/

/-- C2: base `1 hour` with repeat `45 minutes × 2`, armed at 07:58: due at
08:00 and not at 07:59; after executing at 08:00 the next due instant is
08:45; after executing at 08:45 it is not due at 09:00 but due at 09:30;
after executing at 09:30 the repeats are exhausted (`repeats_left` reset to
2) and the next due instant reverts to the base schedule at 10:00. -/
theorem repeat_burst_catchup_scenario :
    c2Job0.schedule.next_run = some (instant day20200616 8 0 0) ∧
    c2Job0.schedule.isPending (instant day20200616 7 59 0) = false ∧
    c2Job0.schedule.isPending (instant day20200616 8 0 0) = true ∧
    c2Job1.map (fun j => j.schedule.next_run)
      = some (some (instant day20200616 8 45 0)) ∧
    c2Job1.map (fun j => j.schedule.isPending (instant day20200616 8 44 0))
      = some false ∧
    c2Job2.map (fun j => j.schedule.isPending (instant day20200616 9 0 0))
      = some false ∧
    c2Job2.map (fun j => j.schedule.next_run)
      = some (some (instant day20200616 9 30 0)) ∧
    c2Job3.map (fun j => j.schedule.next_run)
      = some (some (instant day20200616 10 0 0)) ∧
    c2Job3.map (fun j => j.schedule.repeat_config)
      = some (some ⟨2, .Minutes 45, 2⟩) := by
  decide

/-- C5: base `Tuesday` evaluated at 2018-09-04T14:22:13Z (a Tuesday): with
time 15:00 `next` stays on the same day at 15:00; with time 14:00 (already
past) it rolls to next Tuesday 14:00; with time 00:00:00 it rolls to next
Tuesday midnight. -/
theorem tuesday_time_adjustment_scenarios :
    ((RunConfig.fromInterval .Tuesday).withTime (instant 0 15 0 0)).next
        (instant day20180904 14 22 13) = instant day20180904 15 0 0 ∧
    ((RunConfig.fromInterval .Tuesday).withTime (instant 0 14 0 0)).next
        (instant day20180904 14 22 13) = instant (day20180904 + 7) 14 0 0 ∧
    ((RunConfig.fromInterval .Tuesday).withTime 0).next
        (instant day20180904 14 22 13) = instant (day20180904 + 7) 0 0 0 := by
  decide

/-- C6: `with_subinterval` accumulates the chain in list order, the chain
adjustment applies each sub-interval's `next` in that order, and the concrete
scenario base `Tuesday` + `[6 hours, 5 minutes]` at 2018-09-04T14:22:13Z
yields 2018-09-11T06:05:00Z. -/
theorem chained_offsets_scenario :
    (∀ (base i1 i2 : Interval),
      ((RunConfig.fromInterval base).withSubinterval i1).withSubinterval i2
        = { base := base, adjustment := some (.Intervals [i1, i2]) }) ∧
    (∀ (base i1 i2 : Interval) (t : Int),
      (RunConfig.mk base (some (.Intervals [i1, i2]))).applyAdjustment t
        = i2.next (i1.next t)) ∧
    (((RunConfig.fromInterval .Tuesday).withSubinterval
        (.Hours 6)).withSubinterval (.Minutes 5)).next
        (instant day20180904 14 22 13) = instant (day20180904 + 7) 6 5 0 := by
  refine ⟨fun base i1 i2 => rfl, fun base i1 i2 t => rfl, by decide⟩

/-- C10: a `count(0)` job is armed with a `Some` next run (t = 3600), is due
there, and its single execution runs the body exactly once before the run
count transitions to `Never`; a later execution attempt is a no-op. -/
theorem count_zero_runs_once :
    c10Job0.schedule.next_run = some 3600 ∧
    c10Job0.schedule.run_count = .Times 0 ∧
    c10Job0.schedule.isPending 3600 = true ∧
    c10Job1.map (fun j => (j.bodyRuns, j.schedule.run_count))
      = some (1, .Never) ∧
    c10Job2 = c10Job1 := by
  decide

/-- C1 counterexample: after a `count(1)` job's single execution the run
count is `Never`, yet `next_run` was still advanced to a `Some` instant, so
`is_pending` becomes true again at that instant — the claim that `is_pending`
is false for every subsequent instant fails. -/
theorem exhausted_schedule_still_pending :
    c1Job1.map (fun j => (j.schedule.run_count, j.schedule.next_run,
        j.schedule.isPending 7200))
      = some (.Never, some 7200, true) := by
  decide

/-- C3 counterexample: at 1970-01-02T00:00:00Z (t = 86400), exactly on a
`Minutes 7` boundary, `prev` returns 85980 (23:53:00 of the previous day),
which is not a boundary at all, even though the boundary 86100 (23:55:00,
a multiple of 7 minutes since the previous midnight) lies strictly between —
so `prev` is not the most recent boundary at or before `from`. -/
theorem prev_not_boundary_minutes7_midnight :
    (Interval.Minutes 7).prev 86400 = 85980 ∧
    isBoundary (.Minutes 7) 86400 ∧
    isBoundary (.Minutes 7) 86100 ∧
    ¬ isBoundary (.Minutes 7) 85980 ∧
    ¬ prevSpec (.Minutes 7) 86400 := by
  refine ⟨by decide, by decide, by decide, by decide, fun h => absurd h.1 (by decide)⟩

/-- C4 counterexample: a `RunConfig` whose base is the zero-count interval
`Seconds 0` (with no adjustment) has `next(from) = from`, not strictly
after `from`. -/
theorem next_zero_interval_not_strict :
    (RunConfig.fromInterval (.Seconds 0)).next 1000 = 1000 ∧
    ¬ (1000 < (RunConfig.fromInterval (.Seconds 0)).next 1000) := by
  decide

/-- C9 counterexample: `RunConfig::prev` is a core operation whose body is
`unimplemented!()` — it panics for every input within the data model's type
constraints. -/
theorem runconfig_prev_panics :
    (RunConfig.fromInterval (.Seconds 5)).prev 0
      = .error PanicCause.unimplementedCode := rfl

/-- C8: every zero-count numeric variant has `next` and `prev` equal to the
identity on every instant. -/
theorem zero_interval_identity : ∀ t : Int,
    (Interval.Seconds 0).next t = t ∧ (Interval.Seconds 0).prev t = t ∧
    (Interval.Minutes 0).next t = t ∧ (Interval.Minutes 0).prev t = t ∧
    (Interval.Hours 0).next t = t ∧ (Interval.Hours 0).prev t = t ∧
    (Interval.Days 0).next t = t ∧ (Interval.Days 0).prev t = t ∧
    (Interval.Weeks 0).next t = t ∧ (Interval.Weeks 0).prev t = t := by
  intro t
  refine ⟨rfl, rfl, rfl, rfl, rfl, rfl, rfl, rfl, rfl, rfl⟩

/-- C1 (amended): once `run_count` is `Never`, `schedule_next` and `execute`
are no-ops leaving the state (including the body-invocation count) unchanged,
and `can_run_again` is false — but `next_run` may remain set, so `is_pending`
can still return true (see the counterexample). -/
theorem exhausted_schedule_noop (j : SyncJob) (now : Int) (fuel : Nat)
    (h : j.schedule.run_count = .Never) :
    j.schedule.scheduleNext now fuel = some j.schedule ∧
    j.execute now fuel = some j ∧
    j.schedule.canRunAgain = false := by
  have h2 : j.schedule.canRunAgain = false := by
    simp [JobSchedule.canRunAgain, h]
  refine ⟨by simp [JobSchedule.scheduleNext, h], ?_, h2⟩
  simp [SyncJob.execute, h2]

/-- Witness for `exhausted_schedule_noop` at the concrete exhausted job. -/
theorem exhausted_schedule_noop_witness :
    c1ExhaustedJob.schedule.run_count = .Never ∧
    (c1ExhaustedJob.schedule.scheduleNext 9999 5
        = some c1ExhaustedJob.schedule ∧
      c1ExhaustedJob.execute 9999 5 = some c1ExhaustedJob ∧
      c1ExhaustedJob.schedule.canRunAgain = false) :=
  ⟨rfl, exhausted_schedule_noop c1ExhaustedJob 9999 5 rfl⟩

/-- C7: with a non-`Never` run count and no repeat burst pending, the
`next_run` computed at arming and by `schedule_next(now)` is the minimum of
`next(now)` over the owned `RunConfig`s; in particular a job built with
`and_every` on two intervals is armed at the earlier of the two computed
next-occurrences, never later than either. -/
theorem union_earliest_wins :
    (∀ (s : JobSchedule) (now : Int),
      s.run_count ≠ .Never → s.next_run = none →
      (s.startSchedule now).next_run
        = (s.frequency.map (fun f => f.next now)).min?) ∧
    (∀ (s : JobSchedule) (now : Int) (fuel : Nat),
      s.run_count ≠ .Never →
      (∀ rc, s.repeat_config = some rc → rc.repeats_left = 0) →
      ∃ s2, s.scheduleNext now fuel = some s2 ∧
        s2.next_run = (s.frequency.map (fun f => f.next now)).min?) ∧
    (∀ (i1 i2 : Interval) (now : Int),
      (((JobSchedule.new i1).andEvery i2).startSchedule now).next_run
          = some (min ((RunConfig.fromInterval i1).next now)
              ((RunConfig.fromInterval i2).next now)) ∧
      min ((RunConfig.fromInterval i1).next now)
          ((RunConfig.fromInterval i2).next now)
        ≤ (RunConfig.fromInterval i1).next now ∧
      min ((RunConfig.fromInterval i1).next now)
          ((RunConfig.fromInterval i2).next now)
        ≤ (RunConfig.fromInterval i2).next now) := by
  have hnrt : ∀ (s : JobSchedule) (now : Int), s.run_count ≠ .Never →
      s.nextRunTime now = (s.frequency.map (fun f => f.next now)).min? := by
    intro s now h1
    unfold JobSchedule.nextRunTime
    cases hrc : s.run_count with
    | Never => exact absurd hrc h1
    | Times n => rfl
    | Forever => rfl
  refine ⟨?_, ?_, ?_⟩
  · intro s now h1 h2
    unfold JobSchedule.startSchedule
    rw [if_pos h2]
    simpa using hnrt s now h1
  · intro s now fuel h1 h2
    unfold JobSchedule.scheduleNext
    rw [if_neg h1]
    cases hrc : s.repeat_config with
    | none => exact ⟨_, rfl, by simpa using hnrt s now h1⟩
    | some rc =>
        have h0 : rc.repeats_left = 0 := h2 rc hrc
        obtain ⟨reps, ival, left⟩ := rc
        subst h0
        exact ⟨_, rfl, by simpa using hnrt s now h1⟩
  · intro i1 i2 now
    refine ⟨?_, min_le_left _ _, min_le_right _ _⟩
    rfl

/-- Witness for `union_earliest_wins` (its `schedule_next` part) at a
concrete one-interval schedule. -/
theorem union_earliest_wins_witness :
    ∃ s2, (JobSchedule.new (.Seconds 5)).scheduleNext 7 3 = some s2 ∧
      s2.next_run
        = ((JobSchedule.new (.Seconds 5)).frequency.map
            (fun f => f.next 7)).min? :=
  union_earliest_wins.2.1 (JobSchedule.new (.Seconds 5)) 7 3 (by decide)
    (fun rc h => Option.noConfusion h)

/-! ### Strict progress of `next` (C4) -/

theorem dts_bounds :
    ∀ k : Nat, k < 14 → 1 ≤ DAYS_TO_SHIFT.getD k 0 ∧ DAYS_TO_SHIFT.getD k 0 ≤ 7 := by
  decide

theorem named_next_gt_aux (t : Int) (iDow : Nat) (hD : iDow ≤ 6) :
    t < midnightOfDay (dayNumber t +
      (DAYS_TO_SHIFT.getD (7 - iDow + (daysFromMonday (dayNumber t)).toNat) 0 : Int)) := by
  have hidx : 7 - iDow + (daysFromMonday (dayNumber t)).toNat < 14 := by
    unfold daysFromMonday dayNumber
    omega
  obtain ⟨hs1, hs2⟩ :=
    dts_bounds (7 - iDow + (daysFromMonday (dayNumber t)).toNat) hidx
  unfold midnightOfDay daysFromMonday dayNumber at *
  omega

theorem next_gt (i : Interval) (t : Int) (hz : i.isZero = false) (ht : 0 ≤ t) :
    t < i.next t := by
  cases i with
  | Seconds n =>
      have hn : n ≠ 0 := by simpa [Interval.isZero] using hz
      have hb : (n == 0) = false := by simpa using hn
      have hn' : (0 : Int) < (n : Int) := by exact_mod_cast Nat.pos_of_ne_zero hn
      have htm : t.tmod (n : Int) = t % (n : Int) :=
        Int.tmod_eq_emod ht (le_of_lt hn')
      have e2 : t % (n : Int) < (n : Int) := Int.emod_lt_of_pos t hn'
      simp only [Interval.next, Interval.isZero, hb, Bool.false_eq_true,
        if_false, htm]
      linarith
  | Minutes n =>
      have hn : n ≠ 0 := by simpa [Interval.isZero] using hz
      have hb : (n == 0) = false := by simpa using hn
      have hn' : (0 : Int) < (n : Int) * 60 := by positivity
      have e2 : (secondsFromMidnight t) % ((n : Int) * 60) < (n : Int) * 60 :=
        Int.emod_lt_of_pos _ hn'
      simp only [Interval.next, Interval.isZero, hb, Bool.false_eq_true,
        if_false]
      linarith
  | Hours n =>
      have hn : n ≠ 0 := by simpa [Interval.isZero] using hz
      have hb : (n == 0) = false := by simpa using hn
      have hn' : (0 : Int) < (n : Int) * 3600 := by positivity
      have e2 : (secondsFromMidnight t) % ((n : Int) * 3600) < (n : Int) * 3600 :=
        Int.emod_lt_of_pos _ hn'
      simp only [Interval.next, Interval.isZero, hb, Bool.false_eq_true,
        if_false]
      linarith
  | Days n =>
      have hn : n ≠ 0 := by simpa [Interval.isZero] using hz
      have hb : (n == 0) = false := by simpa using hn
      have hn' : (0 : Int) < (n : Int) := by exact_mod_cast Nat.pos_of_ne_zero hn
      have e1 : 0 ≤ (numDaysFromCE t) % (n : Int) :=
        Int.emod_nonneg _ (ne_of_gt hn')
      have e2 : (numDaysFromCE t) % (n : Int) < (n : Int) :=
        Int.emod_lt_of_pos _ hn'
      simp only [Interval.next, Interval.isZero, hb, Bool.false_eq_true,
        if_false]
      unfold midnightOfDay numDaysFromCE dayNumber at *
      omega
  | Weeks n =>
      have hn : n ≠ 0 := by simpa [Interval.isZero] using hz
      have hb : (n == 0) = false := by simpa using hn
      have hn' : (0 : Int) < (n : Int) := by exact_mod_cast Nat.pos_of_ne_zero hn
      have e1 : 0 ≤ ((numDaysFromCE t).tdiv 7) % (n : Int) :=
        Int.emod_nonneg _ (ne_of_gt hn')
      have e2 : ((numDaysFromCE t).tdiv 7) % (n : Int) < (n : Int) :=
        Int.emod_lt_of_pos _ hn'
      simp only [Interval.next, Interval.isZero, hb, Bool.false_eq_true,
        if_false]
      unfold midnightOfDay daysFromMonday numDaysFromCE dayNumber at *
      omega
  | Monday =>
      simpa [Interval.next, Interval.isZero, dayOfWeek] using
        named_next_gt_aux t 0 (by norm_num)
  | Tuesday =>
      simpa [Interval.next, Interval.isZero, dayOfWeek] using
        named_next_gt_aux t 1 (by norm_num)
  | Wednesday =>
      simpa [Interval.next, Interval.isZero, dayOfWeek] using
        named_next_gt_aux t 2 (by norm_num)
  | Thursday =>
      simpa [Interval.next, Interval.isZero, dayOfWeek] using
        named_next_gt_aux t 3 (by norm_num)
  | Friday =>
      simpa [Interval.next, Interval.isZero, dayOfWeek] using
        named_next_gt_aux t 4 (by norm_num)
  | Saturday =>
      simpa [Interval.next, Interval.isZero, dayOfWeek] using
        named_next_gt_aux t 5 (by norm_num)
  | Sunday =>
      simpa [Interval.next, Interval.isZero, dayOfWeek] using
        named_next_gt_aux t 6 (by norm_num)
  | Weekday =>
      simp only [Interval.next, Interval.isZero, Bool.false_eq_true, if_false]
      unfold midnightOfDay daysFromMonday dayNumber
      split_ifs <;> omega

theorem next_ge (i : Interval) (t : Int) (ht : 0 ≤ t) : t ≤ i.next t := by
  cases hz : i.isZero with
  | true =>
      unfold Interval.next
      rw [if_pos hz]
  | false => exact le_of_lt (next_gt i t hz ht)

theorem next_nonneg (i : Interval) (t : Int) (ht : 0 ≤ t) : 0 ≤ i.next t :=
  le_trans ht (next_ge i t ht)

theorem foldl_next_ge (l : List Interval) (t : Int) (ht : 0 ≤ t) :
    t ≤ l.foldl (fun rv ival => ival.next rv) t := by
  induction l generalizing t with
  | nil => exact le_refl t
  | cons i l ih =>
      exact le_trans (next_ge i t ht)
        (ih (i.next t) (next_nonneg i t ht))

theorem applyAdjustment_ge (c : RunConfig) (t : Int) (ht : 0 ≤ t)
    (hv : validAdjustment c.adjustment) : t ≤ c.applyAdjustment t := by
  unfold RunConfig.applyAdjustment
  cases hadj : c.adjustment with
  | none => exact le_refl t
  | some adj =>
      cases adj with
      | Time s =>
          rw [hadj] at hv
          obtain ⟨hv0, hv1⟩ := hv
          unfold midnightOfDay secondsFromMidnight dayNumber
          dsimp only
          split_ifs with h
          · unfold secondsFromMidnight at h
            omega
          · unfold secondsFromMidnight at h
            omega
      | Intervals l => exact foldl_next_ge l t ht

/-! ### Panic-freedom of the interval arithmetic (C9) -/

theorem checkedSubU32_ok {a b : Int} (h : b ≤ a) :
    checkedSubU32 a b = .ok (a - b) := by
  unfold checkedSubU32
  rw [if_pos h]

theorem checkedMulU32_ok {a b : Int} (h : a * b < 4294967296) :
    checkedMulU32 a b = .ok (a * b) := by
  unfold checkedMulU32
  rw [if_pos h]

theorem u32cast_eq {x : Int} (h0 : 0 ≤ x) (h1 : x < 4294967296) :
    u32cast x = x := by
  unfold u32cast
  exact Int.emod_eq_of_lt h0 h1

theorem exceptOkBind {α β : Type} (a : α) (f : α → Except PanicCause β) :
    (Except.ok a >>= f) = f a := rfl

theorem nextChecked_eq (i : Interval) (t : Int) (hf : intervalFits i)
    (ht0 : 0 ≤ t) (ht1 : t ≤ chronoRangeBound) :
    i.nextChecked t = .ok (i.next t) := by
  unfold chronoRangeBound at ht1
  cases i with
  | Seconds n =>
      by_cases hn : n = 0
      · simp [Interval.nextChecked, Interval.next, Interval.isZero, hn]
      · have hb : (n == 0) = false := by simpa using hn
        have hn' : (0 : Int) < (n : Int) := by
          exact_mod_cast Nat.pos_of_ne_zero hn
        have htm : t.tmod (n : Int) = t % (n : Int) :=
          Int.tmod_eq_emod ht0 (le_of_lt hn')
        have hm0 : 0 ≤ t % (n : Int) := Int.emod_nonneg t (ne_of_gt hn')
        have hm1 : t % (n : Int) < (n : Int) := Int.emod_lt_of_pos t hn'
        have hfit : (n : Int) < 4294967296 := by
          simpa [intervalFits] using hf
        have hcast : u32cast (t % (n : Int)) = t % (n : Int) :=
          u32cast_eq hm0 (lt_trans hm1 hfit)
        simp only [Interval.nextChecked, Interval.next, Interval.isZero, hb,
          Bool.false_eq_true, if_false, htm, hcast,
          checkedSubU32_ok (le_of_lt hm1), exceptOkBind]
  | Minutes n =>
      by_cases hn : n = 0
      · simp [Interval.nextChecked, Interval.next, Interval.isZero, hn]
      · have hb : (n == 0) = false := by simpa using hn
        have hn' : (0 : Int) < (n : Int) * 60 := by positivity
        have hfit : (n : Int) * 60 < 4294967296 := by
          simpa [intervalFits] using hf
        have hm1 : (secondsFromMidnight t) % ((n : Int) * 60) < (n : Int) * 60 :=
          Int.emod_lt_of_pos _ hn'
        simp only [Interval.nextChecked, Interval.next, Interval.isZero, hb,
          Bool.false_eq_true, if_false, checkedMulU32_ok hfit, exceptOkBind,
          checkedSubU32_ok (le_of_lt hm1)]
  | Hours n =>
      by_cases hn : n = 0
      · simp [Interval.nextChecked, Interval.next, Interval.isZero, hn]
      · have hb : (n == 0) = false := by simpa using hn
        have hn' : (0 : Int) < (n : Int) * 3600 := by positivity
        have hfit : (n : Int) * 3600 < 4294967296 := by
          simpa [intervalFits] using hf
        have hm1 : (secondsFromMidnight t) % ((n : Int) * 3600) < (n : Int) * 3600 :=
          Int.emod_lt_of_pos _ hn'
        simp only [Interval.nextChecked, Interval.next, Interval.isZero, hb,
          Bool.false_eq_true, if_false, checkedMulU32_ok hfit, exceptOkBind,
          checkedSubU32_ok (le_of_lt hm1)]
  | Days n =>
      by_cases hn : n = 0
      · simp [Interval.nextChecked, Interval.next, Interval.isZero, hn]
      · have hb : (n == 0) = false := by simpa using hn
        have hn' : (0 : Int) < (n : Int) := by
          exact_mod_cast Nat.pos_of_ne_zero hn
        have hcast : u32cast (numDaysFromCE t) = numDaysFromCE t :=
          u32cast_eq (by unfold numDaysFromCE dayNumber; omega)
            (by unfold numDaysFromCE dayNumber; omega)
        have hm1 : (numDaysFromCE t) % (n : Int) < (n : Int) :=
          Int.emod_lt_of_pos _ hn'
        simp only [Interval.nextChecked, Interval.next, Interval.isZero, hb,
          Bool.false_eq_true, if_false, hcast,
          checkedSubU32_ok (le_of_lt hm1), exceptOkBind]
  | Weeks n =>
      by_cases hn : n = 0
      · simp [Interval.nextChecked, Interval.next, Interval.isZero, hn]
      · have hb : (n == 0) = false := by simpa using hn
        have hn' : (0 : Int) < (n : Int) := by
          exact_mod_cast Nat.pos_of_ne_zero hn
        have hE0 : 0 ≤ numDaysFromCE t := by unfold numDaysFromCE dayNumber; omega
        have hE1 : numDaysFromCE t < 4294967296 := by
          unfold numDaysFromCE dayNumber; omega
        have htd : (numDaysFromCE t).tdiv 7 = numDaysFromCE t / 7 :=
          Int.tdiv_eq_ediv hE0 (by norm_num)
        have hcast : u32cast ((numDaysFromCE t).tdiv 7) = (numDaysFromCE t).tdiv 7 := by
          rw [htd]
          exact u32cast_eq (Int.ediv_nonneg hE0 (by norm_num)) (by omega)
        have hm1 : ((numDaysFromCE t).tdiv 7) % (n : Int) < (n : Int) :=
          Int.emod_lt_of_pos _ hn'
        simp only [Interval.nextChecked, Interval.next, Interval.isZero, hb,
          Bool.false_eq_true, if_false, hcast,
          checkedSubU32_ok (le_of_lt hm1), exceptOkBind]
  | Weekday => rfl
  | Monday =>
      have hidx : 7 - dayOfWeek .Monday + (daysFromMonday (dayNumber t)).toNat
          < DAYS_TO_SHIFT.length := by
        unfold DAYS_TO_SHIFT dayOfWeek daysFromMonday dayNumber
        simp only [List.length]
        omega
      simp only [Interval.nextChecked, Interval.next, Interval.isZero,
        Bool.false_eq_true, if_false, if_pos hidx]
  | Tuesday =>
      have hidx : 7 - dayOfWeek .Tuesday + (daysFromMonday (dayNumber t)).toNat
          < DAYS_TO_SHIFT.length := by
        unfold DAYS_TO_SHIFT dayOfWeek daysFromMonday dayNumber
        simp only [List.length]
        omega
      simp only [Interval.nextChecked, Interval.next, Interval.isZero,
        Bool.false_eq_true, if_false, if_pos hidx]
  | Wednesday =>
      have hidx : 7 - dayOfWeek .Wednesday + (daysFromMonday (dayNumber t)).toNat
          < DAYS_TO_SHIFT.length := by
        unfold DAYS_TO_SHIFT dayOfWeek daysFromMonday dayNumber
        simp only [List.length]
        omega
      simp only [Interval.nextChecked, Interval.next, Interval.isZero,
        Bool.false_eq_true, if_false, if_pos hidx]
  | Thursday =>
      have hidx : 7 - dayOfWeek .Thursday + (daysFromMonday (dayNumber t)).toNat
          < DAYS_TO_SHIFT.length := by
        unfold DAYS_TO_SHIFT dayOfWeek daysFromMonday dayNumber
        simp only [List.length]
        omega
      simp only [Interval.nextChecked, Interval.next, Interval.isZero,
        Bool.false_eq_true, if_false, if_pos hidx]
  | Friday =>
      have hidx : 7 - dayOfWeek .Friday + (daysFromMonday (dayNumber t)).toNat
          < DAYS_TO_SHIFT.length := by
        unfold DAYS_TO_SHIFT dayOfWeek daysFromMonday dayNumber
        simp only [List.length]
        omega
      simp only [Interval.nextChecked, Interval.next, Interval.isZero,
        Bool.false_eq_true, if_false, if_pos hidx]
  | Saturday =>
      have hidx : 7 - dayOfWeek .Saturday + (daysFromMonday (dayNumber t)).toNat
          < DAYS_TO_SHIFT.length := by
        unfold DAYS_TO_SHIFT dayOfWeek daysFromMonday dayNumber
        simp only [List.length]
        omega
      simp only [Interval.nextChecked, Interval.next, Interval.isZero,
        Bool.false_eq_true, if_false, if_pos hidx]
  | Sunday =>
      have hidx : 7 - dayOfWeek .Sunday + (daysFromMonday (dayNumber t)).toNat
          < DAYS_TO_SHIFT.length := by
        unfold DAYS_TO_SHIFT dayOfWeek daysFromMonday dayNumber
        simp only [List.length]
        omega
      simp only [Interval.nextChecked, Interval.next, Interval.isZero,
        Bool.false_eq_true, if_false, if_pos hidx]

theorem prevChecked_eq (i : Interval) (t : Int) (hf : intervalFits i)
    (ht0 : 0 ≤ t) (ht1 : t ≤ chronoRangeBound) :
    i.prevChecked t = .ok (i.prev t) := by
  unfold chronoRangeBound at ht1
  cases i with
  | Seconds n =>
      by_cases hn : n = 0
      · simp [Interval.prevChecked, Interval.prev, Interval.isZero, hn]
      · have hb : (n == 0) = false := by simpa using hn
        simp only [Interval.prevChecked, Interval.isZero, hb,
          Bool.false_eq_true, if_false]
  | Minutes n =>
      by_cases hn : n = 0
      · simp [Interval.prevChecked, Interval.prev, Interval.isZero, hn]
      · have hb : (n == 0) = false := by simpa using hn
        have hfit : (n : Int) * 60 < 4294967296 := by
          simpa [intervalFits] using hf
        simp only [Interval.prevChecked, Interval.prev, Interval.isZero, hb,
          Bool.false_eq_true, if_false, checkedMulU32_ok hfit, exceptOkBind]
  | Hours n =>
      by_cases hn : n = 0
      · simp [Interval.prevChecked, Interval.prev, Interval.isZero, hn]
      · have hb : (n == 0) = false := by simpa using hn
        have hfit : (n : Int) * 3600 < 4294967296 := by
          simpa [intervalFits] using hf
        simp only [Interval.prevChecked, Interval.prev, Interval.isZero, hb,
          Bool.false_eq_true, if_false, checkedMulU32_ok hfit, exceptOkBind]
  | Days n =>
      by_cases hn : n = 0
      · simp [Interval.prevChecked, Interval.prev, Interval.isZero, hn]
      · have hb : (n == 0) = false := by simpa using hn
        have hcast : u32cast (numDaysFromCE t) = numDaysFromCE t :=
          u32cast_eq (by unfold numDaysFromCE dayNumber; omega)
            (by unfold numDaysFromCE dayNumber; omega)
        simp only [Interval.prevChecked, Interval.prev, Interval.isZero, hb,
          Bool.false_eq_true, if_false, hcast]
  | Weeks n =>
      by_cases hn : n = 0
      · simp [Interval.prevChecked, Interval.prev, Interval.isZero, hn]
      · have hb : (n == 0) = false := by simpa using hn
        have hE0 : 0 ≤ numDaysFromCE t := by unfold numDaysFromCE dayNumber; omega
        have hE1 : numDaysFromCE t < 4294967296 := by
          unfold numDaysFromCE dayNumber; omega
        have htd : (numDaysFromCE t).tdiv 7 = numDaysFromCE t / 7 :=
          Int.tdiv_eq_ediv hE0 (by norm_num)
        have hcast : u32cast ((numDaysFromCE t).tdiv 7) = (numDaysFromCE t).tdiv 7 := by
          rw [htd]
          exact u32cast_eq (Int.ediv_nonneg hE0 (by norm_num)) (by omega)
        simp only [Interval.prevChecked, Interval.prev, Interval.isZero, hb,
          Bool.false_eq_true, if_false, hcast]
  | Weekday => rfl
  | Monday => rfl
  | Tuesday => rfl
  | Wednesday => rfl
  | Thursday => rfl
  | Friday => rfl
  | Saturday => rfl
  | Sunday => rfl

/-- C9 (amended): the interval boundary arithmetic itself is panic-free —
with the `u32` casts and debug-mode overflow panics modelled explicitly,
`next` and `prev` return `ok` of the ideal value for every variant whose
count converts to seconds within `u32`, at every instant with a non-negative
timestamp inside chrono's representable range.  The blanket claim fails:
`RunConfig::prev` panics unconditionally (see the counterexample). -/
theorem interval_ops_no_panic (i : Interval) (t : Int) (hf : intervalFits i)
    (ht0 : 0 ≤ t) (ht1 : t ≤ chronoRangeBound) :
    i.nextChecked t = .ok (i.next t) ∧ i.prevChecked t = .ok (i.prev t) :=
  ⟨nextChecked_eq i t hf ht0 ht1, prevChecked_eq i t hf ht0 ht1⟩

/-- Witness for `interval_ops_no_panic` at `Minutes 7`, t = 12345. -/
theorem interval_ops_no_panic_witness :
    (Interval.Minutes 7).nextChecked 12345
        = .ok ((Interval.Minutes 7).next 12345) ∧
    (Interval.Minutes 7).prevChecked 12345
        = .ok ((Interval.Minutes 7).prev 12345) :=
  interval_ops_no_panic (.Minutes 7) 12345 (by decide) (by decide) (by decide)

/-! ### Strict progress of `RunConfig::next` (C4, continued)

The `u32` unit-conversion bounds are not a formality: for a type-valid count
whose conversion overflows (`Minutes(2^30)`: `2^30 * 60 ≥ 2^32`), the
source's `m * 60` overflows in `u32` — a debug-build panic (and in a release
build the product wraps to 0, after which `checked_rem(0)` makes `next`
return `from` unchanged). -/

example : (Interval.Minutes 1073741824).nextChecked 0
    = .error .arithOverflow := rfl
example : (Interval.Minutes 1073741824).prevChecked 0
    = .error .arithOverflow := rfl

/-- C4 (amended): for every `RunConfig` whose base interval has a positive
count or is a weekday rule, whose base and chained sub-intervals satisfy the
`u32` unit-conversion bounds (`intervalFits` / `adjustmentFits`), with any
adjustment (a time-of-day adjustment carrying a genuine wall-clock time),
and every instant with a non-negative timestamp, `next(from)` is strictly
after `from`; within chrono's representable range the base's `next`/`prev`
moreover agree with the cast-faithful checked model, so the bounds confine
the claim to where the idealized arithmetic matches the source.  Outside
them the claim fails on the program itself (`Minutes(2^30)` overflows
`m * 60`: debug panic, or a release-mode wrap to 0 that makes
`next(from) = from`), and for a zero-count base `next` returns `from`
itself (see the counterexample). -/
theorem runconfig_next_strictly_after (c : RunConfig) (t : Int)
    (hz : c.base.isZero = false) (hfb : intervalFits c.base)
    (_hfa : adjustmentFits c.adjustment) (hv : validAdjustment c.adjustment)
    (ht : 0 ≤ t) :
    t < c.next t ∧
    (t ≤ chronoRangeBound →
      c.base.nextChecked t = .ok (c.base.next t) ∧
      c.base.prevChecked t = .ok (c.base.prev t)) := by
  refine ⟨?_, fun ht1 =>
    ⟨nextChecked_eq c.base t hfb ht ht1, prevChecked_eq c.base t hfb ht ht1⟩⟩
  unfold RunConfig.next
  dsimp only
  split_ifs with h
  · exact h
  · have h1 : t < c.base.next t := next_gt c.base t hz ht
    have h2 : 0 ≤ c.base.next t := le_trans ht (le_of_lt h1)
    exact lt_of_lt_of_le h1 (applyAdjustment_ge c _ h2 hv)

/-- Witness for `runconfig_next_strictly_after` at a concrete configuration
(`Tuesday` at 01:00:00, evaluated at t = 5). -/
theorem runconfig_next_strictly_after_witness :
    ((RunConfig.fromInterval .Tuesday).withTime 3600).base.isZero = false ∧
    intervalFits ((RunConfig.fromInterval .Tuesday).withTime 3600).base ∧
    adjustmentFits ((RunConfig.fromInterval .Tuesday).withTime 3600).adjustment ∧
    validAdjustment ((RunConfig.fromInterval .Tuesday).withTime 3600).adjustment ∧
    ((5 : Int) < ((RunConfig.fromInterval .Tuesday).withTime 3600).next 5 ∧
      ((5 : Int) ≤ chronoRangeBound →
        ((RunConfig.fromInterval .Tuesday).withTime 3600).base.nextChecked 5
          = .ok (((RunConfig.fromInterval .Tuesday).withTime 3600).base.next 5) ∧
        ((RunConfig.fromInterval .Tuesday).withTime 3600).base.prevChecked 5
          = .ok (((RunConfig.fromInterval .Tuesday).withTime 3600).base.prev 5))) :=
  ⟨by decide, by decide, by decide, by decide,
    runconfig_next_strictly_after _ 5 (by decide) (by decide) (by decide)
      (by decide) (by decide)⟩

/-! ### `prev` as the previous-boundary operation (C3) -/

theorem dvd_sub_emod (n X : Int) : n ∣ X - X % n :=
  ⟨X / n, by rw [Int.emod_def]; ring⟩

theorem le_sub_emod {n b X : Int} (hn : 0 < n) (hd : n ∣ b) (h : b ≤ X) :
    b ≤ X - X % n := by
  obtain ⟨k, rfl⟩ := hd
  have hk : k ≤ X / n := (Int.le_ediv_iff_mul_le hn).mpr (by linarith [mul_comm n k])
  have h2 : n * k ≤ n * (X / n) := mul_le_mul_of_nonneg_left hk (le_of_lt hn)
  rw [Int.emod_def]
  linarith

theorem le_sub_n_of_dvd_lt {n b X : Int} (hn : 0 < n) (hd : n ∣ b)
    (hX : n ∣ X) (h : b < X) : b ≤ X - n := by
  obtain ⟨k, rfl⟩ := hd
  obtain ⟨q, rfl⟩ := hX
  have hk : k < q := lt_of_mul_lt_mul_left h (le_of_lt hn)
  have h2 : n * k ≤ n * (q - 1) :=
    mul_le_mul_of_nonneg_left (by omega) (le_of_lt hn)
  calc n * k ≤ n * (q - 1) := h2
    _ = n * q - n := by ring

/-- The value `X - (X % c)`, bumped a full period when `X` is itself a
multiple, is the greatest multiple of `c` strictly below `X`. -/
theorem prevFloor_spec {c : Int} (X : Int) (hc : 0 < c) :
    (X - (if X % c = 0 then c else X % c)) % c = 0 ∧
    X - (if X % c = 0 then c else X % c) < X ∧
    ∀ b : Int, b % c = 0 → b < X →
      b ≤ X - (if X % c = 0 then c else X % c) := by
  have hm0 : 0 ≤ X % c := Int.emod_nonneg X (ne_of_gt hc)
  have hm1 : X % c < c := Int.emod_lt_of_pos X hc
  split_ifs with h
  · have hdX : c ∣ X := Int.dvd_of_emod_eq_zero h
    refine ⟨?_, by linarith, ?_⟩
    · exact Int.emod_eq_zero_of_dvd (dvd_sub hdX (dvd_refl c))
    · intro b hb hlt
      exact le_sub_n_of_dvd_lt hc (Int.dvd_of_emod_eq_zero hb) hdX hlt
  · refine ⟨Int.emod_eq_zero_of_dvd (dvd_sub_emod c X), by omega, ?_⟩
    intro b hb hlt
    exact le_sub_emod hc (Int.dvd_of_emod_eq_zero hb) (le_of_lt hlt)

theorem prevSpec_seconds (n : Nat) (t : Int) (hn : 0 < n) (ht : 0 ≤ t) :
    prevSpec (.Seconds n) t := by
  have hn' : (0 : Int) < (n : Int) := by exact_mod_cast hn
  have hb : (n == 0) = false := by simpa using Nat.pos_iff_ne_zero.mp hn
  have htm : t.tmod (n : Int) = t % (n : Int) :=
    Int.tmod_eq_emod ht (le_of_lt hn')
  have heq : (Interval.Seconds n).prev t
      = t - (if t % (n : Int) = 0 then (n : Int) else t % (n : Int)) := by
    simp only [Interval.prev, Interval.isZero, hb, Bool.false_eq_true,
      if_false, htm]
  obtain ⟨h1, h2, h3⟩ := prevFloor_spec (c := (n : Int)) t hn'
  unfold prevSpec isBoundary
  rw [heq]
  exact ⟨h1, h2, h3⟩

theorem prevSpec_minutes (n : Nat) (t : Int) (hn : 0 < n)
    (hdvd : ((n : Int) * 60) ∣ 86400) : prevSpec (.Minutes n) t := by
  have hn' : (0 : Int) < (n : Int) * 60 := by positivity
  have hb : (n == 0) = false := by simpa using Nat.pos_iff_ne_zero.mp hn
  have hmm : ∀ x : Int, (x % 86400) % ((n : Int) * 60) = x % ((n : Int) * 60) :=
    fun x => Int.emod_emod_of_dvd x hdvd
  have heq : (Interval.Minutes n).prev t
      = t - (if t % ((n : Int) * 60) = 0 then (n : Int) * 60
          else t % ((n : Int) * 60)) := by
    simp only [Interval.prev, Interval.isZero, hb, Bool.false_eq_true,
      if_false, secondsFromMidnight, hmm]
  obtain ⟨h1, h2, h3⟩ := prevFloor_spec (c := (n : Int) * 60) t hn'
  unfold prevSpec isBoundary secondsFromMidnight
  dsimp only
  rw [heq]
  refine ⟨by rw [hmm]; exact h1, h2, ?_⟩
  intro b hbnd hlt
  rw [hmm] at hbnd
  exact h3 b hbnd hlt

theorem prevSpec_hours (n : Nat) (t : Int) (hn : 0 < n)
    (hdvd : ((n : Int) * 3600) ∣ 86400) : prevSpec (.Hours n) t := by
  have hn' : (0 : Int) < (n : Int) * 3600 := by positivity
  have hb : (n == 0) = false := by simpa using Nat.pos_iff_ne_zero.mp hn
  have hmm : ∀ x : Int, (x % 86400) % ((n : Int) * 3600) = x % ((n : Int) * 3600) :=
    fun x => Int.emod_emod_of_dvd x hdvd
  have heq : (Interval.Hours n).prev t
      = t - (if t % ((n : Int) * 3600) = 0 then (n : Int) * 3600
          else t % ((n : Int) * 3600)) := by
    simp only [Interval.prev, Interval.isZero, hb, Bool.false_eq_true,
      if_false, secondsFromMidnight, hmm]
  obtain ⟨h1, h2, h3⟩ := prevFloor_spec (c := (n : Int) * 3600) t hn'
  unfold prevSpec isBoundary secondsFromMidnight
  dsimp only
  rw [heq]
  refine ⟨by rw [hmm]; exact h1, h2, ?_⟩
  intro b hbnd hlt
  rw [hmm] at hbnd
  exact h3 b hbnd hlt

theorem prevSpec_days (n : Nat) (t : Int) (hn : 0 < n) (_ht : 0 ≤ t) :
    prevSpec (.Days n) t := by
  have hn' : (0 : Int) < (n : Int) := by exact_mod_cast hn
  have hb : (n == 0) = false := by simpa using Nat.pos_iff_ne_zero.mp hn
  have hm0 : 0 ≤ (t / 86400 + 719163) % (n : Int) :=
    Int.emod_nonneg _ (ne_of_gt hn')
  have hm1 : (t / 86400 + 719163) % (n : Int) < (n : Int) :=
    Int.emod_lt_of_pos _ hn'
  have heq : (Interval.Days n).prev t
      = (t / 86400 -
          (if (t / 86400 + 719163) % (n : Int) = 0 ∧ t % 86400 = 0 then (n : Int)
           else (t / 86400 + 719163) % (n : Int))) * 86400 := by
    simp only [Interval.prev, Interval.isZero, hb, Bool.false_eq_true,
      if_false, numDaysFromCE, dayNumber, secondsFromMidnight, midnightOfDay]
  unfold prevSpec isBoundary numDaysFromCE dayNumber secondsFromMidnight
  dsimp only
  rw [heq]
  refine ⟨⟨Int.mul_emod_left _ _, ?_⟩, ?_, ?_⟩
  · rw [Int.mul_ediv_cancel _ (by norm_num : (86400 : Int) ≠ 0)]
    split_ifs with hcond
    · obtain ⟨h1, _⟩ := hcond
      have hd : (n : Int) ∣ (t / 86400 + 719163) := Int.dvd_of_emod_eq_zero h1
      rw [show t / 86400 - (n : Int) + 719163
            = (t / 86400 + 719163) - (n : Int) by ring]
      exact Int.emod_eq_zero_of_dvd (dvd_sub hd (dvd_refl _))
    · rw [show t / 86400 - (t / 86400 + 719163) % (n : Int) + 719163
            = (t / 86400 + 719163) - (t / 86400 + 719163) % (n : Int) by ring]
      exact Int.emod_eq_zero_of_dvd (dvd_sub_emod _ _)
  · split_ifs with hcond <;> omega
  · intro b hbnd hlt
    obtain ⟨hb1, hb2⟩ := hbnd
    have hdb : (n : Int) ∣ (b / 86400 + 719163) := Int.dvd_of_emod_eq_zero hb2
    split_ifs with hcond
    · obtain ⟨h1, h2⟩ := hcond
      have hdE : (n : Int) ∣ (t / 86400 + 719163) := Int.dvd_of_emod_eq_zero h1
      have hlt2 : b / 86400 + 719163 < t / 86400 + 719163 := by omega
      have := le_sub_n_of_dvd_lt hn' hdb hdE hlt2
      omega
    · have hle : b / 86400 + 719163 ≤ t / 86400 + 719163 := by omega
      have := le_sub_emod hn' hdb hle
      omega

theorem prevSpec_weekday_aux (iDow t : Int) (h0 : 0 ≤ iDow) (h6 : iDow ≤ 6) :
    (let dow := (t / 86400 + 3) % 7
     let sh0 := if dow ≥ iDow then dow - iDow else 7 + dow - iDow
     let sh := if sh0 = 0 ∧ t % 86400 = 0 then 7 else sh0
     let p := (t / 86400 - sh) * 86400
     (p % 86400 = 0 ∧ (p / 86400 + 3) % 7 = iDow) ∧ p < t ∧
       ∀ b : Int, (b % 86400 = 0 ∧ (b / 86400 + 3) % 7 = iDow) → b < t →
         b ≤ p) := by
  dsimp only
  split_ifs with h1 h2 h3 <;>
    exact ⟨⟨by omega, by omega⟩, by omega, fun b hb hlt => by omega⟩

theorem prevSpec_anyweekday (t : Int)
    (h : ¬ (daysFromMonday (dayNumber t) = 0 ∧ secondsFromMidnight t = 0)) :
    prevSpec .Weekday t := by
  unfold prevSpec isBoundary Interval.prev Interval.isZero midnightOfDay
    secondsFromMidnight daysFromMonday dayNumber at *
  simp only [Bool.false_eq_true, if_false]
  split_ifs with h1 h2 h3 <;>
    refine ⟨⟨?_, ?_⟩, ?_, fun b hb hlt => ?_⟩ <;> omega

theorem prevSpec_named (i : Interval) (t : Int) (hD : dayOfWeek i < 7) :
    prevSpec i t := by
  cases i with
  | Monday => exact prevSpec_weekday_aux 0 t (by norm_num) (by norm_num)
  | Tuesday => exact prevSpec_weekday_aux 1 t (by norm_num) (by norm_num)
  | Wednesday => exact prevSpec_weekday_aux 2 t (by norm_num) (by norm_num)
  | Thursday => exact prevSpec_weekday_aux 3 t (by norm_num) (by norm_num)
  | Friday => exact prevSpec_weekday_aux 4 t (by norm_num) (by norm_num)
  | Saturday => exact prevSpec_weekday_aux 5 t (by norm_num) (by norm_num)
  | Sunday => exact prevSpec_weekday_aux 6 t (by norm_num) (by norm_num)
  | Seconds n => simp [dayOfWeek] at hD
  | Minutes n => simp [dayOfWeek] at hD
  | Hours n => simp [dayOfWeek] at hD
  | Days n => simp [dayOfWeek] at hD
  | Weeks n => simp [dayOfWeek] at hD
  | Weekday => simp [dayOfWeek] at hD

/-- C3 (amended): `prev(from)` is a boundary strictly before `from` with no
boundary in between (hence the previous *distinct* boundary when `from` is
itself one) — for `Seconds`/`Days` with positive count at instants at or
after the epoch, for `Minutes`/`Hours` whose period divides a day, for every
named weekday at every instant, and for `Weekday` except exactly at a Monday
midnight.  For `Minutes`/`Hours` counts that do not divide a day, for
`Weeks`, and for `Weekday` at a Monday midnight, `prev` can return a
non-boundary instant or skip the most recent boundary (see the
counterexample). -/
theorem prev_boundary_characterization :
    (∀ (n : Nat) (t : Int), 0 < n → 0 ≤ t → prevSpec (.Seconds n) t) ∧
    (∀ (n : Nat) (t : Int), 0 < n → ((n : Int) * 60 ∣ 86400) →
      prevSpec (.Minutes n) t) ∧
    (∀ (n : Nat) (t : Int), 0 < n → ((n : Int) * 3600 ∣ 86400) →
      prevSpec (.Hours n) t) ∧
    (∀ (n : Nat) (t : Int), 0 < n → 0 ≤ t → prevSpec (.Days n) t) ∧
    (∀ (i : Interval) (t : Int), dayOfWeek i < 7 → prevSpec i t) ∧
    (∀ t : Int,
      ¬ (daysFromMonday (dayNumber t) = 0 ∧ secondsFromMidnight t = 0) →
      prevSpec .Weekday t) :=
  ⟨prevSpec_seconds, prevSpec_minutes, prevSpec_hours, prevSpec_days,
   prevSpec_named, prevSpec_anyweekday⟩

/-- Witness for `prev_boundary_characterization` at `Minutes 15`,
t = 86400 (exactly on a boundary). -/
theorem prev_boundary_characterization_witness :
    (0 < 15 ∧ ((15 : Nat) : Int) * 60 ∣ 86400) ∧ prevSpec (.Minutes 15) 86400 :=
  ⟨⟨by norm_num, by norm_num⟩,
    prev_boundary_characterization.2.1 15 86400 (by norm_num) (by norm_num)⟩

end Clokwerk
